import Mathlib

/-!
# Kitchen Sync — verification of the differential table-synchronization engine

Shallow embedding of the engine's data model and operations:

* key tuples and the half-open key range `(prev_key, last_key]` with the
  empty-tuple sentinel (spec §3, tests in `hash_from_test` / `rows_from_test`);
* the source responder's `HASH` and `ROWS` handlers (the `from` endpoint code
  is not in the repository snapshot; it is modelled from the spec §4.4 with the
  wire shape pinned by its test suite, which is in the snapshot);
* the destination worker's per-table dispatch loop and the surrounding
  transaction / integrity / abort choreography (`src/sync_to.h`);
* the top-level `ks` launcher's exit-code computation (`main`).
-/

namespace KitchenSync

/-- A database value as exchanged on the wire: NULL, integer, string or
boolean (the self-describing value encoding of spec §4.1, as used by the
test fixtures). -/
inductive Value where
  | null : Value
  | int (z : Int) : Value
  | str (s : String) : Value
  | bool (b : Bool) : Value
deriving DecidableEq, Repr, Inhabited

/-- A key is an ordered tuple of column values; `[]` is the sentinel
("before the first row" as a lower bound, "past the end" as an upper
bound). -/
abbrev Key := List Value

/-- A row is the ordered tuple of column values in declared column order. -/
abbrev Row := List Value

/-- Rank used to order values of different kinds (NULLs sort first, as in the
source databases' ascending order; within one key column the kind is uniform,
so only the within-kind order is ever exercised by real tables). -/
def Value.rank : Value → Nat
  | .null => 0
  | .int _ => 1
  | .str _ => 2
  | .bool _ => 3

/-- Strict order on characters, by code point. -/
def charLt (a b : Char) : Bool := Nat.blt a.toNat b.toNat

/-- Strict lexicographic order on character lists. -/
def strLtAux : List Char → List Char → Bool
  | [], [] => false
  | [], _ :: _ => true
  | _ :: _, [] => false
  | a :: as, b :: bs => charLt a b || (a = b && strLtAux as bs)

/-- Strict lexicographic order on strings (binary collation). -/
def strLt (a b : String) : Bool := strLtAux a.data b.data

/-- Strict order on single column values. -/
def Value.lt : Value → Value → Bool
  | .int a, .int b => a < b
  | .str a, .str b => strLt a b
  | .bool a, .bool b => !a && b
  | a, b => a.rank < b.rank

/-- Lexicographic strict order on key tuples.  The empty tuple compares below
every non-empty tuple, which realises the "before the first row" sentinel for
`prev_key = []`. -/
def keyLt : Key → Key → Bool
  | [], [] => false
  | [], _ :: _ => true
  | _ :: _, [] => false
  | x :: xs, y :: ys => Value.lt x y || (x = y && keyLt xs ys)

/-- Key `k` is not greater than `l` (used for the closed right end of a range). -/
def keyLe (k l : Key) : Bool := keyLt k l || k = l

/-- Membership of key `k` in the range `(prev, last]`: strictly greater than
`prev`, and not greater than `last` unless `last = []`, which means "to the
end of the table" (spec §3). -/
def inRange (prev last k : Key) : Bool :=
  keyLt prev k && (last.isEmpty || keyLe k last)

/-- A table as the engine sees it: name, the indices of the key columns
inside the declared column list (in key order — for `secondtbl` the key
`(thirdcol, secondcol)` is `[2, 1]`), and the rows the source range scan
returns, in key order. -/
structure Table where
  name : String
  keyCols : List Nat
  rows : List Row
deriving DecidableEq, Repr

/-- The ordering key of a row: the key columns extracted from the declared
column tuple, in key-column order. -/
def keyOf (t : Table) (r : Row) : Key :=
  t.keyCols.map (fun i => r.getD i Value.null)

/-- A table is well-formed when its scan order is strictly increasing in the
ordering key (spec §3: "a row's key must be strictly greater than any prior
row's key in the streamed order"). -/
def sortedByKey (t : Table) : Prop :=
  List.Pairwise (fun a b => keyLt (keyOf t a) (keyOf t b) = true) t.rows

instance (t : Table) : Decidable (sortedByKey t) :=
  List.instDecidablePairwise t.rows

/-- Every row's key is a non-empty tuple (tables always have at least one key
column). -/
def keysNonempty (t : Table) : Bool :=
  t.rows.all (fun r => !(keyOf t r).isEmpty)

/-- The source-side range scan: the rows of `(prev, last]` in key order
(spec §4.2 "Row streamer": reads a bounded key range in key order). -/
def scanRange (t : Table) (prev last : Key) : List Row :=
  t.rows.filter (fun r => inRange prev last (keyOf t r))

/-- Modelled from the spec: the pluggable content hash over a serialized row
sequence (spec §2 "Hasher"; the hash implementations are outside the
snapshot).  Modelled as a perfect hash — the serialized row sequence itself —
so that hash equality coincides with row-sequence equality. -/
def hash_of (rows : List Row) : List Row := rows

/-- The source responder's reply to a `HASH` command.  As pinned by
`HashFromTest`, the reply echoes the command's own arguments (table,
`prev_key`, `last_key`, `row_limit`) and appends the actual row count and the
hash. -/
structure HashReply where
  table : String
  prev_key : Key
  last_key : Key
  row_limit : Nat
  row_count : Nat
  hash : List Row
deriving DecidableEq, Repr

/-- Modelled from the spec: the source responder's `HASH` handler
(`sync_from` is not in the repository snapshot).  Per spec §4.4 it scans the
source in key order, reading up to `row_limit` rows in `(prev_key, last_key]`
and hashing them; the reply's wire shape — an echo of the request arguments
followed by the actual row count and the hash — is the one its test suite
(`HashFromTest`, in the snapshot) expects on every exchange. -/
def serveHash (t : Table) (prev last : Key) (limit : Nat) : HashReply :=
  let hashed := (scanRange t prev last).take limit
  { table := t.name
    prev_key := prev
    last_key := last
    row_limit := limit
    row_count := hashed.length
    hash := hash_of hashed }

/-- The source responder's reply to a `ROWS` command: the echoed range header
followed by the streamed row tuples. -/
structure RowsReply where
  table : String
  prev_key : Key
  last_key : Key
  rows : List Row
deriving DecidableEq, Repr

/-- Modelled from the spec: the source responder's `ROWS` handler
(`sync_from` is not in the repository snapshot).  Per spec §4.4 it streams
the rows of `(prev_key, last_key]` in key order, to end-of-table when
`last_key = []`; the echoed header is the shape `RowsFromTest` expects. -/
def serveRows (t : Table) (prev last : Key) : RowsReply :=
  { table := t.name
    prev_key := prev
    last_key := last
    rows := scanRange t prev last }

/-! ## Concrete fixtures from the test suite -/

/-- Table `footbl` as populated by `HashFromTest#setup_with_footbl`: single-column
key (column 0), five rows. -/
def footbl : Table :=
  { name := "footbl"
    keyCols := [0]
    rows := [[.int 2, .int 10, .str "test"],
             [.int 4, .null, .str "foo"],
             [.int 5, .null, .null],
             [.int 8, .int (-1), .str "longer str"],
             [.int 100, .int 0, .str "last"]] }

/-- Table `footbl` as populated by `RowsFromTest` ("returns all the rows..."):
four rows. -/
def footbl4 : Table :=
  { name := "footbl"
    keyCols := [0]
    rows := [[.int 2, .int 10, .str "test"],
             [.int 4, .null, .str "foo"],
             [.int 5, .null, .null],
             [.int 8, .int (-1), .str "longer str"]] }

/-- Table `secondtbl` as populated by the composite-key tests: declared columns
`(pri, secondcol, thirdcol, col3)`, key `(thirdcol, secondcol)` — the key
columns in reverse declared order — and the four rows in key order. -/
def secondtbl : Table :=
  { name := "secondtbl"
    keyCols := [2, 1]
    rows := [[.int 100, .int 100, .str "aa", .int 100],
             [.int 9, .int 968116383, .str "aa", .int 9],
             [.int 340, .int 363401169, .str "ab", .int 20],
             [.int 2, .int 2349174, .str "xy", .int 1]] }

/-- Table `noprimaryjointbl` as populated by the no-primary-key tests: the scan
returns grouped rows `(table1_id, table2_id, count)` ordered by the
`(table2_id, table1_id)` index, so the key columns are `[1, 0]`. -/
def noprimaryjointbl : Table :=
  { name := "noprimaryjointbl"
    keyCols := [1, 0]
    rows := [[.int 3, .int 9, .int 1],
             [.int 3, .int 10, .int 2],
             [.int 3, .int 11, .int 1],
             [.int 1, .int 100, .int 1],
             [.int 1, .int 101, .int 1],
             [.int 2, .int 101, .int 1]] }

/-! ## Destination worker: the per-table dispatch loop (`SyncToWorker::sync_table`) -/

/-- The hash payload carried by the wire messages (same model as `hash_of`). -/
abbrev Hash := List Row

/-- An inbound message of the per-table dialogue, as dispatched on
`command.verb` in `sync_table` (src/sync_to.h lines 210-289). -/
inductive Message where
  | hashNext (prev last : Key) (hash : Hash)
  | hashFail (prev last failed : Key) (hash : Hash)
  | rows (prev last : Key)
  | rowsAndHashNext (prev last next : Key) (hash : Hash)
  | rowsAndHashFail (prev last next failed : Key) (hash : Hash)
deriving DecidableEq, Repr

/-- An observable action of the destination's per-table loop body:
`checkHash` is the call to `check_hash_and_choose_next_range` (which checks
the received hash against the destination's own and sends the next command),
`applyRows` is `row_applier.stream_from_input` (applying the streamed rows to
the destination database). -/
inductive Effect where
  | checkHash (prev last : Key) (failed : Option Key) (hash : Hash)
  | applyRows (prev last : Key)
deriving DecidableEq, Repr

/-- One iteration of `sync_table`'s `while (true)` loop: the ordered effects
the branch performs, and whether the loop continues (`false` = the `break` on
a plain `ROWS` whose `last_key` is empty, src/sync_to.h line 247).  The two
combined verbs call `check_hash_and_choose_next_range` *before*
`stream_from_input` (lines 267-268 and 284-285). -/
def handleMessage : Message → List Effect × Bool
  | .hashNext prev last hash => ([.checkHash prev last none hash], true)
  | .hashFail prev last failed hash => ([.checkHash prev last (some failed) hash], true)
  | .rows prev last => ([.applyRows prev last], !last.isEmpty)
  | .rowsAndHashNext prev last next hash =>
      ([.checkHash last next none hash, .applyRows prev last], true)
  | .rowsAndHashFail prev last next failed hash =>
      ([.checkHash last next (some failed) hash, .applyRows prev last], true)

/-- The per-table loop run over a (prefix of the) inbound message stream:
effects accumulate until a message breaks the loop, after which no further
message is processed. -/
def runTable : List Message → List Effect
  | [] => []
  | m :: ms =>
      (handleMessage m).1 ++ (if (handleMessage m).2 then runTable ms else [])

/-! ## Destination worker: table sync with the referential-integrity window
(`SyncToWorker::sync_tables`, src/sync_to.h lines 169-189) -/

/-- An observable action of `sync_tables` and of the barrier choreography. -/
inductive SyncEffect where
  | disableIntegrity
  | syncTable (name : String)
  | barrier
  | enableIntegrity
deriving DecidableEq, Repr

/-- The trace of `sync_tables`: disable referential integrity, sync each
table popped from the queue (in queue order, until the queue yields null),
wait at the barrier, then re-enable referential integrity. -/
def sync_tables (queue : List String) : List SyncEffect :=
  .disableIntegrity :: (queue.map .syncTable ++ [.barrier, .enableIntegrity])

/-- Index of the barrier in a worker's `sync_tables` trace. -/
def barrierIdx (queue : List String) : Nat := queue.length + 1

/-! ## Destination worker: whole-run trace and transaction semantics
(`SyncToWorker::operator()`, src/sync_to.h lines 42-78) -/

/-- An observable action of a worker's whole run. -/
inductive WorkerEffect where
  | startTransaction
  | doSyncTables
  | commitTransaction
  | rollbackTransaction
  | sendQuit
  | closeStream
deriving DecidableEq, Repr

/-- The trace of a worker run that raises no exception (src/sync_to.h lines
42-78): start the write transaction, sync the tables, then roll back when the
`rollback_after` option is set and commit otherwise, send `QUIT`, and close
the output stream. -/
def workerSuccessTrace (rollback_after : Bool) : List WorkerEffect :=
  [.startTransaction, .doSyncTables,
   if rollback_after then .rollbackTransaction else .commitTransaction,
   .sendQuit, .closeStream]

/-- Destination database state during a worker run: the committed contents
and the in-transaction working contents.  `D` is the abstract database
contents, `f` the net change table sync makes to the working copy. -/
structure TxnState (D : Type) where
  committed : D
  working : D
deriving DecidableEq, Repr

/-- Modelled from the spec: the database-client transaction capability
(`begin_transaction` / `commit` / `rollback`, spec §9; the driver code is not
in the repository snapshot).  Commit publishes the working contents, rollback
discards them. -/
def applyWorkerEffect {D : Type} (f : D → D) :
    TxnState D → WorkerEffect → TxnState D
  | s, .startTransaction => { committed := s.committed, working := s.committed }
  | s, .doSyncTables => { committed := s.committed, working := f s.working }
  | s, .commitTransaction => { committed := s.working, working := s.working }
  | s, .rollbackTransaction => { committed := s.committed, working := s.committed }
  | s, .sendQuit => s
  | s, .closeStream => s

/-- Run a worker trace over the destination database state. -/
def runWorker {D : Type} (f : D → D) (s : TxnState D)
    (es : List WorkerEffect) : TxnState D :=
  es.foldl (applyWorkerEffect f) s

/-! ## Cooperative abort (`SyncQueue::abort` and the worker's catch handler) -/

/-- The shared abort flag of the sync queue. -/
structure SyncQueueState where
  aborted : Bool
deriving DecidableEq, Repr

/-- Modelled from the spec: `SyncQueue.abort` (`sync_queue.h` is not in the
repository snapshot): sets the abort flag and "returns true iff this call was
the first to set abort" (spec §4.5). -/
def SyncQueue.abort (s : SyncQueueState) : SyncQueueState × Bool :=
  ({ aborted := true }, !s.aborted)

/-- The worker's top-level catch handler (src/sync_to.h lines 63-67): call
`sync_queue.abort()`, and print the error to stderr iff it returned true.
Returns the new queue state and whether this worker printed the error. -/
def workerHandleException (s : SyncQueueState) : SyncQueueState × Bool :=
  let r := SyncQueue.abort s
  (r.1, r.2)

/-- A sequence of failing workers hitting the catch handler one after the
other: returns the final queue state and, in order, whether each printed. -/
def runFailingWorkers : SyncQueueState → Nat → SyncQueueState × List Bool
  | s, 0 => (s, [])
  | s, n + 1 =>
      let r := workerHandleException s
      let rest := runFailingWorkers r.1 n
      (rest.1, r.2 :: rest.2)

/-! ## The top-level `ks` launcher (`main`, src/unnamed/part_000) -/

/-- How a `ks` invocation unfolds: option parsing fails (handled by
`help(desc)`), an exception escapes to `main`'s outer catch, or the children
are spawned and waited for, each reporting success or failure. -/
inductive MainOutcome where
  | parseFailure
  | setupException (msg : String)
  | ran (childSuccesses : List Bool)
deriving DecidableEq, Repr

/-- The exit code `main` produces (src/unnamed/part_000 lines 39-101):
option-parsing failures return `help(desc)` = 1; when all children were
waited for, 0 if every `wait_for_and_check` succeeded and 1 otherwise; an
exception escaping to the outer catch is printed to stderr, after which
control falls off the end of `main`, which in C++ returns 0. -/
def ksMain : MainOutcome → Int
  | .parseFailure => 1
  | .setupException _ => 0
  | .ran childSuccesses => if childSuccesses.all (· = true) then 0 else 1

/-! ## Shared helper lemmas -/

/-- The rows a `HASH` command hashes are a sublist of the table's scan. -/
lemma take_scan_sublist (t : Table) (prev last : Key) (limit : Nat) :
    List.Sublist ((scanRange t prev last).take limit) t.rows :=
  (List.take_sublist limit _).trans (List.filter_sublist t.rows)

/-- Membership in the range `(prev, [])` is just the lower bound. -/
lemma inRange_last_nil (prev k : Key) : inRange prev [] k = keyLt prev k := by
  simp [inRange, keyLe]

/-- A non-empty key is strictly greater than the empty lower-bound
sentinel. -/
lemma keyLt_nil_of_ne_nil {k : Key} (h : k ≠ []) : keyLt [] k = true := by
  cases k with
  | nil => exact absurd rfl h
  | cons x xs => rfl

/-! ## C1 — the HASH reply -/

/-- C1 (counterexample): the claim says the `HASH` reply carries "the actual
last key" — the key where the hashed scan actually stopped — differing from
the provided `last_key` when `row_limit` truncates the scan.  On `footbl`
with range `([4], [100]]` and `row_limit = 2` the scan truncates at key
`[8]`, yet the reply still carries the provided `[100]` (exactly what
`HashFromTest` "limits the number of rows" expects), so the reply does not
carry the actual last key. -/
theorem C1_counterexample :
    2 < (scanRange footbl [Value.int 4] [Value.int 100]).length ∧
    (((scanRange footbl [Value.int 4] [Value.int 100]).take 2).map
        (keyOf footbl)).getLast? = some [Value.int 8] ∧
    (serveHash footbl [Value.int 4] [Value.int 100] 2).last_key = [Value.int 100] ∧
    (serveHash footbl [Value.int 4] [Value.int 100] 2).last_key ≠ [Value.int 8] := by
  decide

/-- C1 (amended): on `HASH(table, prev_key, last_key, row_limit)` the source
responder hashes the rows whose key is strictly greater than `prev_key` and
not greater than `last_key`, scanned in key order and reading at most
`row_limit` rows, and replies with a `HASH` message echoing the request's
arguments and carrying the actual row count and the hash; the reply's
`last_key` always equals the provided `last_key` (in particular when fewer
than `row_limit` rows exist before `last_key`, in which case every row of the
range is hashed). -/
theorem C1_hash_reply (t : Table) (prev last : Key) (limit : Nat)
    (hs : sortedByKey t) :
    (serveHash t prev last limit).table = t.name ∧
    (serveHash t prev last limit).prev_key = prev ∧
    (serveHash t prev last limit).last_key = last ∧
    (serveHash t prev last limit).row_limit = limit ∧
    (serveHash t prev last limit).row_count
      = ((scanRange t prev last).take limit).length ∧
    (serveHash t prev last limit).hash
      = hash_of ((scanRange t prev last).take limit) ∧
    ((scanRange t prev last).take limit).length ≤ limit ∧
    (∀ r ∈ (scanRange t prev last).take limit,
        r ∈ t.rows ∧ inRange prev last (keyOf t r) = true) ∧
    List.Pairwise (fun a b => keyLt (keyOf t a) (keyOf t b) = true)
      ((scanRange t prev last).take limit) ∧
    ((scanRange t prev last).length < limit →
        (scanRange t prev last).take limit = scanRange t prev last) :=
  ⟨rfl, rfl, rfl, rfl, rfl, rfl,
   (List.length_take limit (scanRange t prev last)).le.trans
        (Nat.min_le_left _ _),
   fun r hr => by
     have hmem : r ∈ scanRange t prev last := List.mem_of_mem_take hr
     exact ⟨(List.mem_filter.mp hmem).1, (List.mem_filter.mp hmem).2⟩,
   hs.sublist (take_scan_sublist t prev last limit),
   fun h => List.take_of_length_le h.le⟩

/-- C1 (witness): the amended HASH-reply theorem applied to `footbl` with the
range `([2], [4]]` and row limit 1000 from `HashFromTest`. -/
theorem C1_hash_reply_witness :
    (serveHash footbl [Value.int 2] [Value.int 4] 1000).row_count
      = ((scanRange footbl [Value.int 2] [Value.int 4]).take 1000).length :=
  (C1_hash_reply footbl [Value.int 2] [Value.int 4] 1000 (by decide)).2.2.2.2.1

/-! ## C2 — the ROWS reply -/

/-- C2: on `ROWS(table, prev_key, last_key)` the source responder streams
exactly the rows whose key is strictly greater than `prev_key` and not
greater than `last_key`, in key order; `last_key = []` streams to the end of
the table, `prev_key = []` starts from the first row, and a range containing
no rows yields a reply with zero row tuples. -/
theorem C2_rows_reply (t : Table) (prev last : Key)
    (hs : sortedByKey t) (hk : keysNonempty t = true) :
    (serveRows t prev last).table = t.name ∧
    (serveRows t prev last).prev_key = prev ∧
    (serveRows t prev last).last_key = last ∧
    (∀ r, r ∈ (serveRows t prev last).rows ↔
        r ∈ t.rows ∧ inRange prev last (keyOf t r) = true) ∧
    List.Pairwise (fun a b => keyLt (keyOf t a) (keyOf t b) = true)
      (serveRows t prev last).rows ∧
    (serveRows t prev []).rows = t.rows.filter (fun r => keyLt prev (keyOf t r)) ∧
    (serveRows t [] last).rows
      = t.rows.filter (fun r => last.isEmpty || keyLe (keyOf t r) last) ∧
    ((∀ r ∈ t.rows, inRange prev last (keyOf t r) = false) →
        (serveRows t prev last).rows = []) :=
  ⟨rfl, rfl, rfl,
   fun r => List.mem_filter,
   hs.sublist (List.filter_sublist t.rows),
   List.filter_congr (fun r _ => inRange_last_nil prev (keyOf t r)),
   List.filter_congr (fun r hr => by
     have hne : keyOf t r ≠ [] := by
       have := List.all_eq_true.mp hk r hr
       simpa [List.isEmpty_iff] using this
     simp [inRange, keyLt_nil_of_ne_nil hne]),
   fun h => List.filter_eq_nil_iff.mpr (fun r hr => by simp [h r hr])⟩

/-- C2 (witness): the ROWS-reply theorem applied to the four-row `footbl`
fixture of `RowsFromTest` at the range `([1], [2]]`. -/
theorem C2_rows_reply_witness :
    [Value.int 2, Value.int 10, Value.str "test"]
      ∈ (serveRows footbl4 [Value.int 1] [Value.int 2]).rows :=
  ((C2_rows_reply footbl4 [Value.int 1] [Value.int 2] (by decide)
      (by decide)).2.2.2.1 _).mpr (by decide)

/-! ## C3 — the row count in a HASH reply -/

/-- C3: the `row_count` field in the `HASH` reply equals the number of rows
scanned on the source in the requested range — all of them if fewer than
`row_limit` exist, `row_limit` of them otherwise — whether or not the
ordering key is unique: witnessed on `noprimaryjointbl`, the non-unique-key
fixture, whose grouped scan rows are counted exactly as the unique-key ones
(`HashFromTest`'s "adds a row count" expectations). -/
theorem C3_row_count (t : Table) (prev last : Key) (limit : Nat) :
    (serveHash t prev last limit).row_count
      = min limit (scanRange t prev last).length ∧
    (serveHash t prev last limit).row_count
      = ((scanRange t prev last).take limit).length ∧
    (serveHash noprimaryjointbl [] [Value.int 10, Value.int 3] 1000).row_count = 2 ∧
    (serveHash noprimaryjointbl [] [Value.int 11, Value.int 3] 2).row_count = 2 ∧
    (scanRange noprimaryjointbl [] [Value.int 10, Value.int 3]).length = 2 :=
  ⟨List.length_take limit (scanRange t prev last),
   rfl, by decide, by decide, by decide⟩

/-! ## C4 — composite keys -/

/-- C4: rows are ordered lexicographically by the key columns in key-column
order — for `secondtbl` the key is `(thirdcol, secondcol)`, columns 2 and 1
of the declared order — not by the declared column order (the declared first
column reads 100, 9, 340, 2, which is not increasing), while each row tuple
in a reply lists values in declared column order; a `HASH` over
`([], ["aa", 101]]` returns row count 1 and the hash of row
`(100, 100, "aa", 100)` only. -/
theorem C4_composite_key :
    sortedByKey secondtbl ∧
    secondtbl.keyCols = [2, 1] ∧
    secondtbl.rows.map (keyOf secondtbl)
      = [[Value.str "aa", Value.int 100], [Value.str "aa", Value.int 968116383],
         [Value.str "ab", Value.int 363401169], [Value.str "xy", Value.int 2349174]] ∧
    ¬ List.Pairwise (fun a b => keyLt a b = true)
        (secondtbl.rows.map (fun r => [r.getD 0 Value.null])) ∧
    serveHash secondtbl [] [Value.str "aa", Value.int 101] 1000
      = { table := "secondtbl", prev_key := [],
          last_key := [Value.str "aa", Value.int 101], row_limit := 1000,
          row_count := 1,
          hash := hash_of [[Value.int 100, Value.int 100, Value.str "aa", Value.int 100]] } := by
  decide

/-! ## C5 — termination of the per-table loop -/

/-- C5: the destination worker's per-table loop terminates exactly on a plain
`ROWS` message whose `last_key` is the empty tuple; `ROWS` with a non-empty
`last_key` and the combined `ROWS_AND_HASH_NEXT` / `ROWS_AND_HASH_FAIL`
messages never terminate the dialogue, and once the terminating message is
processed no later message is. -/
theorem C5_table_loop_termination :
    (∀ m : Message, (handleMessage m).2 = false ↔ ∃ prev, m = Message.rows prev []) ∧
    (∀ pre post prev, (∀ m ∈ pre, (handleMessage m).2 = true) →
        runTable (pre ++ Message.rows prev [] :: post)
          = runTable pre ++ [Effect.applyRows prev []]) := by
  constructor
  · intro m
    cases m with
    | rows p l => cases l <;> simp [handleMessage]
    | hashNext p l h => simp [handleMessage]
    | hashFail p l f h => simp [handleMessage]
    | rowsAndHashNext p l n h => simp [handleMessage]
    | rowsAndHashFail p l n f h => simp [handleMessage]
  · intro pre post prev h
    induction pre with
    | nil => simp [runTable, handleMessage]
    | cons m ms ih =>
        have hm : (handleMessage m).2 = true := h m (by simp)
        simp [runTable, hm, ih (fun m' hm' => h m' (by simp [hm']))]

/-- C5 (witness): a dialogue of one hash exchange followed by the
end-of-table `ROWS` stops there; the trailing message is never processed. -/
theorem C5_table_loop_termination_witness :
    runTable [Message.hashNext [] [Value.int 5] [], Message.rows [] [],
              Message.rows [Value.int 1] [Value.int 2]]
      = runTable [Message.hashNext [] [Value.int 5] []]
          ++ [Effect.applyRows [] []] :=
  C5_table_loop_termination.2 [Message.hashNext [] [Value.int 5] []]
    [Message.rows [Value.int 1] [Value.int 2]] [] (by decide)

/-! ## C6 — pipelining of combined replies -/

/-- C6: for every combined reply (`ROWS_AND_HASH_NEXT` or
`ROWS_AND_HASH_FAIL`) the destination worker checks the hash and sends its
next command (the `checkHash` effect) strictly before it applies the streamed
rows to its database (the `applyRows` effect). -/
theorem C6_pipelining (prev last next failed : Key) (hash : Hash) :
    ((handleMessage (Message.rowsAndHashNext prev last next hash)).1
       = [Effect.checkHash last next none hash, Effect.applyRows prev last]) ∧
    ((handleMessage (Message.rowsAndHashFail prev last next failed hash)).1
       = [Effect.checkHash last next (some failed) hash, Effect.applyRows prev last]) ∧
    (∀ i j : Nat, (handleMessage (Message.rowsAndHashNext prev last next hash)).1[i]?
          = some (Effect.checkHash last next none hash) →
        (handleMessage (Message.rowsAndHashNext prev last next hash)).1[j]?
          = some (Effect.applyRows prev last) → i < j) ∧
    (∀ i j : Nat, (handleMessage (Message.rowsAndHashFail prev last next failed hash)).1[i]?
          = some (Effect.checkHash last next (some failed) hash) →
        (handleMessage (Message.rowsAndHashFail prev last next failed hash)).1[j]?
          = some (Effect.applyRows prev last) → i < j) := by
  refine ⟨rfl, rfl, ?_, ?_⟩ <;>
  · intro i j h1 h2
    match j, h2 with
    | 0, h2 => simp [handleMessage] at h2
    | j + 2, h2 => simp [handleMessage] at h2
    | 1, _ =>
      match i, h1 with
      | 0, _ => omega
      | 1, h1 => simp [handleMessage] at h1
      | i + 2, h1 => simp [handleMessage] at h1

/-- C6 (witness): the pipelining theorem applied at a concrete combined
reply. -/
theorem C6_pipelining_witness :
    ((handleMessage (Message.rowsAndHashNext [] [Value.int 1] [Value.int 2] [])).1
       = [Effect.checkHash [Value.int 1] [Value.int 2] none [],
          Effect.applyRows [] [Value.int 1]]) ∧ (0 : Nat) < 1 :=
  ⟨(C6_pipelining [] [Value.int 1] [Value.int 2] [] []).1,
   (C6_pipelining [] [Value.int 1] [Value.int 2] [] []).2.2.1 0 1
     (by decide) (by decide)⟩

/-! ## C7 — exit codes of the top-level `ks` process -/

/-- C7: `ks` exits 0 when every child worker process succeeds and 1 when some
child fails or option parsing fails; but when an exception escapes to
`main`'s outer catch (any failure during setup), the error is printed and
control falls off the end of `main`, so the process exits 0 — contradicting
the documented "1 on any failure". -/
theorem C7_exit_codes :
    ksMain (MainOutcome.ran [true, true]) = 0 ∧
    ksMain (MainOutcome.ran [true, false, true]) = 1 ∧
    ksMain MainOutcome.parseFailure = 1 ∧
    ksMain (MainOutcome.setupException "fork failed") = 0 ∧
    ksMain (MainOutcome.setupException "fork failed") ≠ 1 := by
  decide

/-! ## C8 — first-to-abort prints the error -/

/-- Once the abort flag is set, later failing workers never print. -/
lemma runFailingWorkers_after_abort (n : Nat) :
    runFailingWorkers { aborted := true } n
      = ({ aborted := true }, List.replicate n false) := by
  induction n with
  | zero => rfl
  | succ k ih =>
      simp [runFailingWorkers, workerHandleException, SyncQueue.abort, ih,
        List.replicate]

/-- C8: a worker whose run raises sets the shared abort flag, and prints the
error iff its `abort` call was the first to set the flag; in a sequence of
failing workers starting from a clean queue, exactly the first prints. -/
theorem C8_first_abort_prints (s : SyncQueueState) (n : Nat) :
    (workerHandleException s).1.aborted = true ∧
    ((workerHandleException s).2 = true ↔ s.aborted = false) ∧
    (workerHandleException (workerHandleException s).1).2 = false ∧
    runFailingWorkers { aborted := false } (n + 1)
      = ({ aborted := true }, true :: List.replicate n false) := by
  refine ⟨rfl, ?_, rfl, ?_⟩
  · cases s with
    | mk b => cases b <;> simp [workerHandleException, SyncQueue.abort]
  · simp [runFailingWorkers, workerHandleException, SyncQueue.abort,
      runFailingWorkers_after_abort]

/-- C8 (witness): with three failing workers from a clean queue, only the
first prints. -/
theorem C8_first_abort_prints_witness :
    runFailingWorkers { aborted := false } 3
      = ({ aborted := true }, [true, false, false]) :=
  (C8_first_abort_prints { aborted := false } 2).2.2.2

/-! ## C9 — the referential-integrity window -/

/-- In a worker's `sync_tables` trace, table work sits strictly between the
integrity disable (index 0) and the barrier. -/
lemma sync_tables_syncTable_between {queue : List String} {i : Nat}
    {name : String}
    (h : (sync_tables queue)[i]? = some (SyncEffect.syncTable name)) :
    0 < i ∧ i < barrierIdx queue := by
  match i, h with
  | 0, h => simp [sync_tables] at h
  | k + 1, h =>
      simp only [sync_tables, List.getElem?_cons_succ] at h
      rcases Nat.lt_or_ge k queue.length with hk | hk
      · exact ⟨Nat.succ_pos k, by simp only [barrierIdx]; omega⟩
      · exfalso
        rw [List.getElem?_append_right (by simpa using hk)] at h
        generalize k - (List.map SyncEffect.syncTable queue).length = d at h
        match d, h with
        | 0, h => simp at h
        | 1, h => simp at h
        | d + 2, h => simp at h

/-- In a worker's `sync_tables` trace, the integrity re-enable occurs only at
the position immediately after the barrier. -/
lemma sync_tables_enable_at {queue : List String} {j : Nat}
    (h : (sync_tables queue)[j]? = some SyncEffect.enableIntegrity) :
    j = barrierIdx queue + 1 := by
  match j, h with
  | 0, h => simp [sync_tables] at h
  | k + 1, h =>
      simp only [sync_tables, List.getElem?_cons_succ] at h
      rcases Nat.lt_or_ge k queue.length with hk | hk
      · exfalso
        rw [List.getElem?_append_left (by simpa using hk)] at h
        rw [List.getElem?_map] at h
        cases hq : queue[k]? with
        | none => rw [hq] at h; simp at h
        | some nm => rw [hq] at h; simp at h
      · have hk' : (List.map SyncEffect.syncTable queue).length ≤ k := by
          simpa using hk
        rw [List.getElem?_append_right hk'] at h
        have hlen : (List.map SyncEffect.syncTable queue).length
            = queue.length := by simp
        rcases hd : k - (List.map SyncEffect.syncTable queue).length with _ | d
        · rw [hd] at h; simp at h
        · rcases d with _ | d
          · rw [hd] at h
            simp only [barrierIdx]
            omega
          · rw [hd] at h; simp at h

/-- C9: referential-integrity checks on the destination are disabled for the
duration of the table synchronization — each worker's `sync_tables` trace
starts with the disable, all its table work happens strictly before its
barrier, and the re-enable is the sole event after the barrier; consequently,
under the barrier semantics (per-worker event order is monotone in global
time, and no worker proceeds past the barrier before every worker has
arrived), every re-enable happens globally after every worker's table
work. -/
theorem C9_integrity_window :
    (∀ queue : List String,
        (sync_tables queue)[0]? = some SyncEffect.disableIntegrity) ∧
    (∀ (queue : List String) (i : Nat) (name : String),
        (sync_tables queue)[i]? = some (SyncEffect.syncTable name) →
        0 < i ∧ i < barrierIdx queue) ∧
    (∀ queue : List String,
        (sync_tables queue)[barrierIdx queue]? = some SyncEffect.barrier) ∧
    (∀ (queue : List String) (j : Nat),
        (sync_tables queue)[j]? = some SyncEffect.enableIntegrity →
        j = barrierIdx queue + 1) ∧
    (∀ (ws : Nat → List String) (ts : Nat → Nat → Nat),
        (∀ w i j, i < j → ts w i < ts w j) →
        (∀ w w', ts w (barrierIdx (ws w)) < ts w' (barrierIdx (ws w') + 1)) →
        ∀ w w' i name j,
          (sync_tables (ws w))[i]? = some (SyncEffect.syncTable name) →
          (sync_tables (ws w'))[j]? = some SyncEffect.enableIntegrity →
          ts w i < ts w' j) := by
  refine ⟨fun queue => by simp [sync_tables],
    fun queue i name h => sync_tables_syncTable_between h,
    ?_, fun queue j h => sync_tables_enable_at h,
    fun ws ts hmono hbar w w' i name j hi hj => ?_⟩
  · intro queue
    simp only [sync_tables, barrierIdx, List.getElem?_cons_succ]
    rw [List.getElem?_append_right (by simp)]
    simp
  · have hib := sync_tables_syncTable_between hi
    have hje := sync_tables_enable_at hj
    have h1 : ts w i < ts w (barrierIdx (ws w)) := hmono w i _ hib.2
    rw [hje]
    exact h1.trans (hbar w w')

/-- C9 (witness): two workers with one table each, timestamped by event
index: worker 0's table work (index 1) precedes worker 1's integrity
re-enable (index 3). -/
theorem C9_integrity_window_witness :
    ((0 : Nat) < 1 ∧ 1 < barrierIdx ["a"]) ∧ (1 : Nat) < 3 :=
  ⟨C9_integrity_window.2.1 ["a"] 1 "a" (by decide),
   C9_integrity_window.2.2.2.2 (fun _ => ["a"]) (fun _ i => i)
     (fun _ _ _ h => h) (fun _ _ => by norm_num [barrierIdx]) 0 1 1 "a" 3
     (by decide) (by decide)⟩

/-! ## C10 — the rollback_after option -/

/-- C10: when the `rollback_after` option is set and the worker's run
succeeds, the worker rolls back its write transaction instead of committing
it — the committed destination contents end unchanged, whatever net change
`f` table sync made to the working copy (whereas without the option the
change is committed) — and the `QUIT` command is still sent afterwards. -/
theorem C10_rollback_after {D : Type} (f : D → D) (db : D) :
    (runWorker f { committed := db, working := db }
        (workerSuccessTrace true)).committed = db ∧
    (runWorker f { committed := db, working := db }
        (workerSuccessTrace false)).committed = f db ∧
    WorkerEffect.rollbackTransaction ∈ workerSuccessTrace true ∧
    WorkerEffect.commitTransaction ∉ workerSuccessTrace true ∧
    WorkerEffect.sendQuit ∈ workerSuccessTrace true ∧
    List.indexOf WorkerEffect.rollbackTransaction (workerSuccessTrace true)
      < List.indexOf WorkerEffect.sendQuit (workerSuccessTrace true) :=
  ⟨rfl, rfl, by decide, by decide, by decide, by decide⟩

/-- C10 (witness): the rollback theorem evaluated on a one-counter database
where table sync increments the counter. -/
theorem C10_rollback_after_witness :
    (runWorker (fun n : Nat => n + 1) { committed := 0, working := 0 }
        (workerSuccessTrace true)).committed = 0 :=
  (C10_rollback_after (fun n : Nat => n + 1) 0).1

end KitchenSync
